import Mathlib

/-!
Verification of the discordcarbot chat relay (`carbot/carbot.py`).

Shallow embedding conventions:
* Python strings that are inspected character by character (message content,
  filenames, regex scanning) are `List Char`; purely uninterpreted strings
  (urls, size tags, layout tags) are Lean `String`.
* Python values that may be `None` are `Option`.
* Code paths that can raise are `Except PyExc`.
* The regular expressions of the source are embedded as executable,
  fuel-based scanners (the fuel is always at least the input length, which
  suffices because every step consumes at least one character).
-/

namespace Carbot

/-! ## Data model -/

/-- A Discord channel: either a private DM channel or a guild text channel
with its display name (what `str(channel)` yields in the source). -/
inductive Channel where
  | dm
  | guild (name : String)
  deriving DecidableEq

/-- Discord message type tag; the source only distinguishes
`discord.MessageType.default` from everything else. -/
inductive MessageType where
  | default
  | system
  | other
  deriving DecidableEq

/-- The message author fields read by the source: `id`, `display_name`,
`str(color)`, the `bot` flag, the avatar hash (`None` when the user has no
custom avatar) and `default_avatar_url`. -/
structure Author where
  id : Nat
  display_name : List Char
  color : String
  bot : Bool
  avatar : Option String
  default_avatar_url : String

/-- A Discord attachment descriptor: `filename`, `url` and `proxy_url`. -/
structure Attachment where
  filename : List Char
  url : String
  proxy_url : String

/-- An inbound Discord message, with the fields the source reads. -/
structure InboundMessage where
  author : Author
  content : List Char
  attachments : List Attachment
  channel : Channel
  type : MessageType

/-- LINE flex components constructed by `text_message`
(`FillerComponent`, `TextComponent`, `ImageComponent`, `IconComponent`,
`BoxComponent`), keeping exactly the keyword arguments the source passes. -/
inductive FlexComponent where
  | filler
  | textComp (text : List Char) (weight : Option String) (flex : Option Nat)
      (color : Option String) (size : Option String) (wrap : Bool)
  | imageComp (url : String) (flex : Option Nat) (size : String)
  | iconComp (url : String) (size : String)
  | boxComp (layout : String) (spacing : Option String) (contents : List FlexComponent)

/-- A LINE `BubbleContainer`; the source only ever sets its `footer`. -/
structure BubbleContainer where
  footer : FlexComponent

/-- A LINE `SendMessage` object: the tagged target-message variants the
source constructs (`TextSendMessage`, `ImageSendMessage`, `AudioSendMessage`,
`VideoSendMessage`, `FlexSendMessage`). -/
inductive TargetMessage where
  | textSend (text : List Char)
  | imageSend (original_content_url : String) (preview_image_url : String)
  | audioSend (original_content_url : String)
  | videoSend (original_content_url : String)
  | flexSend (alt_text : List Char) (contents : BubbleContainer)

/-! ## `group` (carbot.py lines 20-24)

```python
def group(list, group_size):
    return [ list[start_idx:start_idx + group_size]
             for start_idx in range(0, len(list), group_size) ]
```
`range(0, n, step)` has `(n + step - 1) / step` elements (for `step > 0`),
and the slice `list[i:i+g]` is `(list.drop i).take g`. -/

/-- Splits the given list into a list of sublists, each sublist having at
most `group_size` many elements; direct translation of `group` from the
source (list comprehension over `range(0, len(list), group_size)`). -/
def group (l : List α) (group_size : Nat) : List (List α) :=
  (List.range' 0 ((l.length + group_size - 1) / group_size) group_size).map
    (fun start_idx => (l.drop start_idx).take group_size)

theorem group_nil (gs : Nat) : group ([] : List α) gs = [] := by
  unfold group
  have h : (List.length ([] : List α) + gs - 1) / gs = 0 := by
    rcases Nat.eq_zero_or_pos gs with h0 | h0
    · simp [h0]
    · simp only [List.length_nil, Nat.zero_add]
      exact Nat.div_eq_of_lt (by omega)
  rw [h]
  rfl

theorem range'_map_add (step : Nat) :
    ∀ (n s : Nat), List.range' (s + step) n step = (List.range' s n step).map (· + step) := by
  intro n
  induction n with
  | zero => intro s; rfl
  | succ n ih =>
    intro s
    rw [List.range'_succ, List.range'_succ, List.map_cons, ← ih (s + step)]

theorem group_cons {gs : Nat} (h : 0 < gs) {l : List α} (hl : l ≠ []) :
    group l gs = l.take gs :: group (l.drop gs) gs := by
  have hlen : 0 < l.length := List.length_pos.mpr hl
  have hchunks : (l.length + gs - 1) / gs = ((l.drop gs).length + gs - 1) / gs + 1 := by
    rw [List.length_drop]
    by_cases hle : l.length ≤ gs
    · have h1 : l.length - gs = 0 := by omega
      rw [h1]
      have h2 : (l.length + gs - 1) / gs = 1 :=
        Nat.div_eq_of_lt_le (by omega) (by omega)
      have h3 : (0 + gs - 1) / gs = 0 := Nat.div_eq_of_lt (by omega)
      rw [h2, h3]
    · have heq : l.length + gs - 1 = (l.length - gs + gs - 1) + gs := by omega
      rw [heq, Nat.add_div_right _ h]
  unfold group
  rw [hchunks, List.range'_succ, List.map_cons, range'_map_add gs _ 0, List.map_map]
  rw [List.cons.injEq]
  refine ⟨by simp, ?_⟩
  apply List.map_congr_left
  intro i _
  simp only [Function.comp_apply, List.drop_drop]
  rw [Nat.add_comm]

theorem group_flatten_le (gs : Nat) (h : 0 < gs) :
    ∀ (n : Nat) (l : List α), l.length ≤ n → (group l gs).flatten = l := by
  intro n
  induction n with
  | zero =>
    intro l hl
    have : l = [] := by
      cases l with
      | nil => rfl
      | cons a t => simp at hl
    rw [this, group_nil]
    rfl
  | succ n ih =>
    intro l hl
    by_cases he : l = []
    · rw [he, group_nil]; rfl
    · rw [group_cons h he, List.flatten_cons,
        ih (l.drop gs) (by rw [List.length_drop]; omega),
        List.take_append_drop]

/-- The groups produced by `group` concatenate back to the original list. -/
theorem group_flatten (gs : Nat) (h : 0 < gs) (l : List α) :
    (group l gs).flatten = l :=
  group_flatten_le gs h l.length l (Nat.le_refl _)

theorem group_mem_le (gs : Nat) (h : 0 < gs) :
    ∀ (n : Nat) (l : List α), l.length ≤ n →
      ∀ b ∈ group l gs, 1 ≤ b.length ∧ b.length ≤ gs := by
  intro n
  induction n with
  | zero =>
    intro l hl b hb
    have : l = [] := by
      cases l with
      | nil => rfl
      | cons a t => simp at hl
    rw [this, group_nil] at hb
    simp at hb
  | succ n ih =>
    intro l hl b hb
    by_cases he : l = []
    · rw [he, group_nil] at hb; simp at hb
    · rw [group_cons h he] at hb
      rcases List.mem_cons.mp hb with hb | hb
      · subst hb
        rw [List.length_take]
        have hlp : 0 < l.length := List.length_pos.mpr he
        constructor <;> omega
      · exact ih (l.drop gs) (by rw [List.length_drop]; omega) b hb

/-- Every group produced by `group` has between 1 and `gs` elements. -/
theorem group_mem (gs : Nat) (h : 0 < gs) (l : List α) :
    ∀ b ∈ group l gs, 1 ≤ b.length ∧ b.length ≤ gs :=
  group_mem_le gs h l.length l (Nat.le_refl _)

theorem group_sizes_13 {l : List α} (hl : l.length = 13) :
    (group l 5).map List.length = [5, 5, 3] := by
  have h5 : (0 : Nat) < 5 := by omega
  have h1 : l ≠ [] := by intro h; rw [h] at hl; simp at hl
  have hd1 : (l.drop 5).length = 8 := by rw [List.length_drop, hl]
  have h2 : l.drop 5 ≠ [] := by
    intro h; rw [h] at hd1; simp at hd1
  have hd2 : ((l.drop 5).drop 5).length = 3 := by rw [List.length_drop, hd1]
  have h3 : (l.drop 5).drop 5 ≠ [] := by
    intro h; rw [h] at hd2; simp at hd2
  have hd3 : (((l.drop 5).drop 5).drop 5).length = 0 := by rw [List.length_drop, hd2]
  have h4 : ((l.drop 5).drop 5).drop 5 = [] := List.eq_nil_of_length_eq_zero hd3
  rw [group_cons h5 h1, group_cons h5 h2, group_cons h5 h3, h4, group_nil]
  simp [List.length_take, hl, hd1, hd2]

theorem group_sizes_7 {l : List α} (hl : l.length = 7) :
    (group l 6).map List.length = [6, 1] := by
  have h6 : (0 : Nat) < 6 := by omega
  have h1 : l ≠ [] := by intro h; rw [h] at hl; simp at hl
  have hd1 : (l.drop 6).length = 1 := by rw [List.length_drop, hl]
  have h2 : l.drop 6 ≠ [] := by
    intro h; rw [h] at hd1; simp at hd1
  have hd2 : ((l.drop 6).drop 6).length = 0 := by rw [List.length_drop, hd1]
  have h3 : (l.drop 6).drop 6 = [] := List.eq_nil_of_length_eq_zero hd2
  rw [group_cons h6 h1, group_cons h6 h2, h3, group_nil]
  simp [List.length_take, hl, hd1]

theorem group_sizes_12 {l : List α} (hl : l.length = 12) :
    (group l 8).map List.length = [8, 4] := by
  have h8 : (0 : Nat) < 8 := by omega
  have h1 : l ≠ [] := by intro h; rw [h] at hl; simp at hl
  have hd1 : (l.drop 8).length = 4 := by rw [List.length_drop, hl]
  have h2 : l.drop 8 ≠ [] := by
    intro h; rw [h] at hd1; simp at hd1
  have hd2 : ((l.drop 8).drop 8).length = 0 := by rw [List.length_drop, hd1]
  have h3 : (l.drop 8).drop 8 = [] := List.eq_nil_of_length_eq_zero hd2
  rw [group_cons h8 h1, group_cons h8 h2, h3, group_nil]
  simp [List.length_take, hl, hd1]

theorem group_sizes_23 {l : List α} (hl : l.length = 23) :
    (group l 10).map List.length = [10, 10, 3] := by
  have h10 : (0 : Nat) < 10 := by omega
  have h1 : l ≠ [] := by intro h; rw [h] at hl; simp at hl
  have hd1 : (l.drop 10).length = 13 := by rw [List.length_drop, hl]
  have h2 : l.drop 10 ≠ [] := by
    intro h; rw [h] at hd1; simp at hd1
  have hd2 : ((l.drop 10).drop 10).length = 3 := by rw [List.length_drop, hd1]
  have h3 : (l.drop 10).drop 10 ≠ [] := by
    intro h; rw [h] at hd2; simp at hd2
  have hd3 : (((l.drop 10).drop 10).drop 10).length = 0 := by rw [List.length_drop, hd2]
  have h4 : ((l.drop 10).drop 10).drop 10 = [] := List.eq_nil_of_length_eq_zero hd3
  rw [group_cons h10 h1, group_cons h10 h2, group_cons h10 h3, h4, group_nil]
  simp [List.length_take, hl, hd1, hd2]

/-! ## Regex model (carbot.py lines 118-148)

`emoji_regex = re.compile(r'<:[^:]+:([0-9]+)>')` and
`plain_emoji_msg_regex = re.compile(r'^(?:\s*<:[^:]+:[0-9]+>\s*)+$')`.

Both patterns are deterministic: `[^:]+` is a maximal run of non-colons
(it can never trade characters with the following `:`), `[0-9]+` is a
maximal run of digits, so matching needs no backtracking and is embedded
as a functional scanner.  The scanners take a fuel argument that is always
initialised to at least the input length, which suffices because every
successful step consumes at least one character. -/

/-- Python's `\s` character class, restricted to its ASCII members
(space, tab, newline, carriage return, vertical tab, form feed). -/
def isPySpace (c : Char) : Bool :=
  c = ' ' || c = '\t' || c = '\n' || c = '\r' || c = '\x0b' || c = '\x0c'

/-- Consume leading whitespace, as `\s*` does. -/
def skipWs (s : List Char) : List Char := s.dropWhile isPySpace

/-- Match one emoji token `<:[^:]+:([0-9]+)>` at the head of the input,
returning the captured digit group and the unconsumed remainder.  The name
is the maximal run of non-colons after `<:` (so the character dropped after
it, if any, is necessarily the closing `:` of the name, which is why the
second list pattern needs no further test), the digits are the maximal run
of decimal digits after that colon, and the digits must be followed by `>`. -/
def parseEmojiToken (s : List Char) : Option (List Char × List Char) :=
  match s with
  | c0 :: c1 :: rest =>
    if c0 = '<' ∧ c1 = ':' then
      if rest.takeWhile (fun c => c ≠ ':') = [] then none
      else
        match rest.dropWhile (fun c => c ≠ ':') with
        | [] => none
        | _ :: rest2 =>
          if rest2.takeWhile Char.isDigit = [] then none
          else
            match rest2.dropWhile Char.isDigit with
            | [] => none
            | c :: rest3 =>
              if c = '>' then some (rest2.takeWhile Char.isDigit, rest3) else none
    else none
  | _ => none

/-- Matcher loop for `(?:\s*<:[^:]+:[0-9]+>\s*)+$` after the leading `\s*`
has been consumed: repeatedly read a token followed by `\s*` until the end
of the input. -/
def matchTokensAux : Nat → List Char → Bool
  | 0, _ => false
  | fuel + 1, s =>
    match parseEmojiToken s with
    | none => false
    | some (_, rest) => (skipWs rest).isEmpty || matchTokensAux fuel (skipWs rest)

/-- `DiscordCarbot.plain_emoji_msg_regex.match(content)` viewed as a
Boolean: does the whole string match `^(?:\s*<:[^:]+:[0-9]+>\s*)+$`? -/
def plainEmojiMatch (s : List Char) : Bool :=
  matchTokensAux (s.length + 1) (skipWs s)

/-- Scanner loop for `DiscordCarbot.emoji_regex.findall`: at each position
try to match a token; on success emit the captured digits and resume after
the match, otherwise advance one character. -/
def emojiFindallAux : Nat → List Char → List (List Char)
  | 0, _ => []
  | _ + 1, [] => []
  | fuel + 1, c :: rest =>
    match parseEmojiToken (c :: rest) with
    | some (d, rest2) => d :: emojiFindallAux fuel rest2
    | none => emojiFindallAux fuel rest

/-- `DiscordCarbot.emoji_regex.findall(content)`: the ordered list of
captured emoji hashes. -/
def emoji_findall (s : List Char) : List (List Char) := emojiFindallAux s.length s

/-! ### Specification-side description of the whole-message-emoji language -/

/-- A string of the exact emoji-token form `<:name:digits>`:
a non-empty colon-free name and a non-empty run of decimal digits. -/
def IsEmojiToken (t : List Char) : Prop :=
  ∃ name digits : List Char,
    name ≠ [] ∧ (∀ c ∈ name, c ≠ ':') ∧
    digits ≠ [] ∧ (∀ c ∈ digits, c.isDigit = true) ∧
    t = '<' :: ':' :: (name ++ ':' :: (digits ++ ['>']))

/-- A string made only of whitespace characters. -/
def AllWs (w : List Char) : Prop := ∀ c ∈ w, isPySpace c = true

/-- One or more emoji tokens, each followed by optional whitespace. -/
inductive EmojiTokenRun : List Char → Prop where
  | single (t w : List Char) : IsEmojiToken t → AllWs w → EmojiTokenRun (t ++ w)
  | cons (t w rest : List Char) : IsEmojiToken t → AllWs w → EmojiTokenRun rest →
      EmojiTokenRun (t ++ w ++ rest)

/-- The spec's whole-message-emoji property: the entire string, ignoring
surrounding and interleaving whitespace, consists of one or more emoji
tokens and nothing else. -/
def SpecPlainEmoji (s : List Char) : Prop :=
  ∃ w rest : List Char, AllWs w ∧ EmojiTokenRun rest ∧ s = w ++ rest

/-! ### takeWhile / dropWhile helper lemmas -/

theorem takeWhile_append_cons {p : α → Bool} :
    ∀ (l : List α), (∀ c ∈ l, p c = true) → ∀ {x : α}, p x = false →
      ∀ (r : List α), (l ++ x :: r).takeWhile p = l := by
  intro l
  induction l with
  | nil =>
    intro _ x hx r
    simp [List.takeWhile_cons, hx]
  | cons a t ih =>
    intro hl x hx r
    have ha : p a = true := hl a (by simp)
    simp only [List.cons_append, List.takeWhile_cons, ha, if_true]
    rw [ih (fun c hc => hl c (by simp [hc])) hx r]

theorem dropWhile_append_cons {p : α → Bool} :
    ∀ (l : List α), (∀ c ∈ l, p c = true) → ∀ {x : α}, p x = false →
      ∀ (r : List α), (l ++ x :: r).dropWhile p = x :: r := by
  intro l
  induction l with
  | nil =>
    intro _ x hx r
    simp [List.dropWhile_cons, hx]
  | cons a t ih =>
    intro hl x hx r
    have ha : p a = true := hl a (by simp)
    simp only [List.cons_append, List.dropWhile_cons, ha, if_true]
    rw [ih (fun c hc => hl c (by simp [hc])) hx r]

theorem dropWhile_all {p : α → Bool} :
    ∀ (l : List α), (∀ c ∈ l, p c = true) → l.dropWhile p = [] := by
  intro l
  induction l with
  | nil => intro _; rfl
  | cons a t ih =>
    intro hl
    have ha : p a = true := hl a (by simp)
    simp only [List.dropWhile_cons, ha, if_true]
    exact ih (fun c hc => hl c (by simp [hc]))

theorem dropWhile_append_all {p : α → Bool} :
    ∀ (l : List α), (∀ c ∈ l, p c = true) →
      ∀ (r : List α), (l ++ r).dropWhile p = r.dropWhile p := by
  intro l
  induction l with
  | nil => intro _ r; rfl
  | cons a t ih =>
    intro hl r
    have ha : p a = true := hl a (by simp)
    simp only [List.cons_append, List.dropWhile_cons, ha, if_true]
    exact ih (fun c hc => hl c (by simp [hc])) r

theorem parseEmojiToken_cons_cons (c0 c1 : Char) (rest : List Char) :
    parseEmojiToken (c0 :: c1 :: rest) =
      if c0 = '<' ∧ c1 = ':' then
        if rest.takeWhile (fun c => c ≠ ':') = [] then none
        else
          match rest.dropWhile (fun c => c ≠ ':') with
          | [] => none
          | _ :: rest2 =>
            if rest2.takeWhile Char.isDigit = [] then none
            else
              match rest2.dropWhile Char.isDigit with
              | [] => none
              | c :: rest3 =>
                if c = '>' then some (rest2.takeWhile Char.isDigit, rest3) else none
      else none := rfl

theorem dropWhile_head_false {p : α → Bool} :
    ∀ (l : List α) {x : α} {xs : List α}, l.dropWhile p = x :: xs → p x = false := by
  intro l
  induction l with
  | nil => intro x xs h; exact absurd h (by simp)
  | cons a t ih =>
    intro x xs h
    rw [List.dropWhile_cons] at h
    by_cases hp : p a = true
    · rw [if_pos hp] at h
      exact ih h
    · rw [if_neg hp] at h
      have hx : x = a := (List.cons.injEq .. ▸ h.symm).1
      rw [hx]
      exact Bool.eq_false_iff.mpr hp

/-! ### Correctness of the scanners against the spec-side language -/

theorem parseEmojiToken_sound {s d rest : List Char}
    (h : parseEmojiToken s = some (d, rest)) :
    ∃ t, IsEmojiToken t ∧ s = t ++ rest := by
  unfold parseEmojiToken at h
  split at h
  case h_2 => exact absurd h (by simp)
  case h_1 c0 c1 rest0 =>
    by_cases hcc : c0 = '<' ∧ c1 = ':'
    · rw [if_pos hcc] at h
      by_cases hname : rest0.takeWhile (fun c => c ≠ ':') = []
      · rw [if_pos hname] at h
        exact absurd h (by simp)
      · rw [if_neg hname] at h
        split at h
        next hdw => exact absurd h (by simp)
        next x rest2 hdw =>
          by_cases hdig : rest2.takeWhile Char.isDigit = []
          · rw [if_pos hdig] at h
            exact absurd h (by simp)
          · rw [if_neg hdig] at h
            split at h
            next hdw2 => exact absurd h (by simp)
            next c rest3 hdw2 =>
              by_cases hgt : c = '>'
              · rw [if_pos hgt] at h
                injection h with h'
                have hr : rest3 = rest := congrArg Prod.snd h'
                have hx : x = ':' := by
                  have hfalse := dropWhile_head_false rest0 hdw
                  exact not_not.mp (of_decide_eq_false hfalse)
                obtain ⟨name, hname_eq⟩ :
                    ∃ n, rest0.takeWhile (fun c => c ≠ ':') = n := ⟨_, rfl⟩
                obtain ⟨digs, hdigs_eq⟩ :
                    ∃ n, rest2.takeWhile Char.isDigit = n := ⟨_, rfl⟩
                have hsplit1 : rest0 = name ++ ':' :: rest2 := by
                  conv_lhs => rw [← List.takeWhile_append_dropWhile
                    (fun c => decide (c ≠ ':')) rest0]
                  rw [hdw, hname_eq, hx]
                have hsplit2 : rest2 = digs ++ '>' :: rest3 := by
                  conv_lhs => rw [← List.takeWhile_append_dropWhile
                    Char.isDigit rest2]
                  rw [hdw2, hdigs_eq, hgt]
                refine ⟨'<' :: ':' :: (name ++ ':' :: (digs ++ ['>'])), ?_, ?_⟩
                · refine ⟨name, digs, ?_, ?_, ?_, ?_, rfl⟩
                  · rw [← hname_eq]; exact hname
                  · intro c hc
                    rw [← hname_eq] at hc
                    exact of_decide_eq_true
                      (@List.mem_takeWhile_imp Char (fun c => decide (c ≠ ':')) rest0 c hc)
                  · rw [← hdigs_eq]; exact hdig
                  · intro c hc
                    rw [← hdigs_eq] at hc
                    exact List.mem_takeWhile_imp hc
                · obtain ⟨hc0, hc1⟩ := hcc
                  rw [hc0, hc1, ← hr, hsplit1, hsplit2]
                  simp [List.append_assoc]
              · rw [if_neg hgt] at h
                exact absurd h (by simp)
    · rw [if_neg hcc] at h
      exact absurd h (by simp)

theorem parseEmojiToken_complete {t : List Char} (ht : IsEmojiToken t)
    (rest : List Char) : ∃ d, parseEmojiToken (t ++ rest) = some (d, rest) := by
  obtain ⟨name, digits, hn, hnc, hd, hdc, hteq⟩ := ht
  subst hteq
  have hshape : ('<' :: ':' :: (name ++ ':' :: (digits ++ ['>']))) ++ rest
      = '<' :: ':' :: (name ++ ':' :: (digits ++ '>' :: rest)) := by
    simp [List.append_assoc]
  rw [hshape]
  have hnc' : ∀ c ∈ name, (fun c => decide (c ≠ ':')) c = true := by
    intro c hc
    exact decide_eq_true (hnc c hc)
  have h1 : (name ++ ':' :: (digits ++ '>' :: rest)).takeWhile (fun c => c ≠ ':')
      = name := takeWhile_append_cons name hnc' (by simp) _
  have h2 : (name ++ ':' :: (digits ++ '>' :: rest)).dropWhile (fun c => c ≠ ':')
      = ':' :: (digits ++ '>' :: rest) := dropWhile_append_cons name hnc' (by simp) _
  have h3 : (digits ++ '>' :: rest).takeWhile Char.isDigit = digits :=
    takeWhile_append_cons digits hdc (by decide) _
  have h4 : (digits ++ '>' :: rest).dropWhile Char.isDigit = '>' :: rest :=
    dropWhile_append_cons digits hdc (by decide) _
  refine ⟨digits, ?_⟩
  rw [parseEmojiToken_cons_cons, if_pos ⟨rfl, rfl⟩, h1, if_neg hn, h2]
  show (if (digits ++ '>' :: rest).takeWhile Char.isDigit = [] then none
        else
          match (digits ++ '>' :: rest).dropWhile Char.isDigit with
          | [] => none
          | c :: rest3 =>
            if c = '>' then
              some ((digits ++ '>' :: rest).takeWhile Char.isDigit, rest3)
            else none) = some (digits, rest)
  rw [h3, if_neg hd, h4]
  show (if '>' = '>' then some (digits, rest) else none) = some (digits, rest)
  rw [if_pos rfl]

theorem skipWs_decomp (s : List Char) :
    AllWs (s.takeWhile isPySpace) ∧ s = s.takeWhile isPySpace ++ skipWs s :=
  ⟨fun _ hc => List.mem_takeWhile_imp hc,
   (List.takeWhile_append_dropWhile _ _).symm⟩

theorem skipWs_append_ws {w : List Char} (hw : AllWs w) (r : List Char) :
    skipWs (w ++ r) = skipWs r :=
  dropWhile_append_all w hw r

theorem skipWs_token_head {t r : List Char} (ht : IsEmojiToken t) :
    skipWs (t ++ r) = t ++ r := by
  obtain ⟨name, digits, _, _, _, _, hteq⟩ := ht
  subst hteq
  rfl

theorem emojiTokenRun_head {r : List Char} (h : EmojiTokenRun r) :
    ∃ t r', IsEmojiToken t ∧ r = t ++ r' := by
  cases h with
  | single t w ht hw => exact ⟨t, w, ht, rfl⟩
  | cons t w rest ht hw hrun => exact ⟨t, w ++ rest, ht, by rw [List.append_assoc]⟩

theorem emojiTokenRun_ne_nil {r : List Char} (h : EmojiTokenRun r) : r ≠ [] := by
  obtain ⟨t, r', ht, hr⟩ := emojiTokenRun_head h
  obtain ⟨name, digits, _, _, _, _, hteq⟩ := ht
  subst hteq
  rw [hr]
  simp

theorem matchTokensAux_succ_none {n : Nat} {s : List Char}
    (hp : parseEmojiToken s = none) : matchTokensAux (n + 1) s = false := by
  unfold matchTokensAux
  rw [hp]

theorem matchTokensAux_succ_some {n : Nat} {s d rest : List Char}
    (hp : parseEmojiToken s = some (d, rest)) :
    matchTokensAux (n + 1) s = ((skipWs rest).isEmpty || matchTokensAux n (skipWs rest)) := by
  conv_lhs => unfold matchTokensAux
  rw [hp]

theorem matchTokensAux_sound :
    ∀ (fuel : Nat) (s : List Char), matchTokensAux fuel s = true → EmojiTokenRun s := by
  intro fuel
  induction fuel with
  | zero =>
    intro s h
    exact absurd h (by simp [matchTokensAux])
  | succ n ih =>
    intro s h
    rcases hpe : parseEmojiToken s with _ | ⟨d, rest⟩
    · rw [matchTokensAux_succ_none hpe] at h
      exact absurd h (by simp)
    · rw [matchTokensAux_succ_some hpe] at h
      obtain ⟨t, ht, hs⟩ := parseEmojiToken_sound hpe
      obtain ⟨hws, hdec⟩ := skipWs_decomp rest
      rcases Bool.or_eq_true .. |>.mp h with hemp | hrec
      · have hnil : skipWs rest = [] := List.isEmpty_iff.mp hemp
        rw [hnil, List.append_nil] at hdec
        rw [hs, hdec]
        exact EmojiTokenRun.single t _ ht hws
      · have hrun : EmojiTokenRun (skipWs rest) := ih _ hrec
        rw [hs, hdec, ← List.append_assoc]
        exact EmojiTokenRun.cons t _ _ ht hws hrun

theorem emojiTokenRun_match {r : List Char} (h : EmojiTokenRun r) :
    ∀ fuel : Nat, r.length < fuel → matchTokensAux fuel r = true := by
  induction h with
  | single t w ht hw =>
    intro fuel hf
    cases fuel with
    | zero => simp at hf
    | succ n =>
      obtain ⟨d, hp⟩ := parseEmojiToken_complete ht w
      rw [matchTokensAux_succ_some hp]
      have hskip : skipWs w = [] := dropWhile_all w hw
      simp [hskip]
  | cons t w rest ht hw hrun ih =>
    intro fuel hf
    cases fuel with
    | zero => simp at hf
    | succ n =>
      obtain ⟨d, hp⟩ := parseEmojiToken_complete ht (w ++ rest)
      rw [List.append_assoc, matchTokensAux_succ_some hp]
      have hskip : skipWs (w ++ rest) = rest := by
        rw [skipWs_append_ws hw]
        obtain ⟨t', r', ht', hr'⟩ := emojiTokenRun_head hrun
        rw [hr', skipWs_token_head ht']
      rw [hskip]
      have hlen : rest.length < n := by
        have h1 : (t ++ w ++ rest).length = t.length + w.length + rest.length := by
          rw [List.length_append, List.length_append]
        have h2 : t.length ≥ 1 := by
          obtain ⟨name, digits, _, _, _, _, hteq⟩ := ht
          subst hteq
          simp
        omega
      have hrec : matchTokensAux n rest = true := ih n hlen
      simp [hrec]

/-- The compiled whole-message-emoji regex accepts exactly the strings of
the spec-side language `SpecPlainEmoji`. -/
theorem plainEmojiMatch_iff_spec (s : List Char) :
    plainEmojiMatch s = true ↔ SpecPlainEmoji s := by
  constructor
  · intro h
    obtain ⟨hws, hdec⟩ := skipWs_decomp s
    exact ⟨s.takeWhile isPySpace, skipWs s, hws, matchTokensAux_sound _ _ h, hdec⟩
  · intro ⟨w, rest, hw, hrun, hs⟩
    subst hs
    unfold plainEmojiMatch
    have hskip : skipWs (w ++ rest) = rest := by
      rw [skipWs_append_ws hw]
      obtain ⟨t', r', ht', hr'⟩ := emojiTokenRun_head hrun
      rw [hr', skipWs_token_head ht']
    rw [hskip]
    apply emojiTokenRun_match hrun
    have : (w ++ rest).length = w.length + rest.length := List.length_append w rest
    omega

/-! ## Content classifier (carbot.py lines 221-238) -/

/-- Python exceptions relevant to the embedded code.  `attrError` models the
`AttributeError` raised in `attachments` when `mimetypes.guess_type` returns
`None` and the code calls `None.startswith(...)`. -/
inductive PyExc where
  | attrError
  deriving DecidableEq

/-- The extension table of Python's `mimetypes` module, restricted to the
entries exercised here; any extension outside the table guesses `None`,
exactly as in Python. -/
def mimetypes_types_map : List (List Char × List Char) :=
  [ (".png".toList,  "image/png".toList),
    (".jpg".toList,  "image/jpeg".toList),
    (".jpeg".toList, "image/jpeg".toList),
    (".gif".toList,  "image/gif".toList),
    (".bmp".toList,  "image/bmp".toList),
    (".svg".toList,  "image/svg+xml".toList),
    (".mp3".toList,  "audio/mpeg".toList),
    (".wav".toList,  "audio/x-wav".toList),
    (".aiff".toList, "audio/x-aiff".toList),
    (".mp4".toList,  "video/mp4".toList),
    (".mov".toList,  "video/quicktime".toList),
    (".avi".toList,  "video/x-msvideo".toList),
    (".txt".toList,  "text/plain".toList),
    (".html".toList, "text/html".toList),
    (".pdf".toList,  "application/pdf".toList),
    (".zip".toList,  "application/zip".toList) ]

/-- `posixpath.splitext` extension: the suffix from the last dot of the
name, after skipping leading dots; empty when no dot remains. -/
def splitext_ext (filename : List Char) : List Char :=
  let stripped := filename.dropWhile (fun c => c = '.')
  if stripped.contains '.' then
    '.' :: (stripped.reverse.takeWhile (fun c => c ≠ '.')).reverse
  else []

/-- `mimetypes.guess_type(filename)[0]`: case-insensitive lookup of the
filename extension in the type table; `none` models Python's `None`
(no extension, or an extension absent from the table). -/
def guess_type (filename : List Char) : Option (List Char) :=
  List.lookup ((splitext_ext filename).map Char.toLower) mimetypes_types_map

/-- The loop body of `DiscordCarbot.attachments` (lines 224-238): classify
each attachment by the MIME guess on its filename; images, audio and video
map to one target message each, any other guessed type is dropped (logged
at info level).  When the guess is `None` the Python code evaluates
`None.startswith('image/')`, which raises `AttributeError`; the
`Except.error` branch models that crash. -/
def attachments_transform : List Attachment → Except PyExc (List TargetMessage)
  | [] => Except.ok []
  | a :: rest =>
    match guess_type a.filename with
    | none => Except.error PyExc.attrError
    | some t =>
      let out : List TargetMessage :=
        if ("image/".toList).isPrefixOf t then
          [TargetMessage.imageSend a.url a.proxy_url]
        else if ("audio/".toList).isPrefixOf t then
          [TargetMessage.audioSend a.url]
        else if ("video/".toList).isPrefixOf t then
          [TargetMessage.videoSend a.url]
        else []
      Except.map (fun ms => out ++ ms) (attachments_transform rest)

/-- `DiscordCarbot.attachments` applied to an inbound message. -/
def attachments (m : InboundMessage) : Except PyExc (List TargetMessage) :=
  attachments_transform m.attachments

/-! ## Card builder: `DiscordCarbot.text_message` (carbot.py lines 150-219) -/

/-- Icon grid parameters chosen from the emoji count (lines 183-192):
row capacity and icon size tier. -/
def emoji_grid_params (n : Nat) : Nat × String :=
  if n ≤ 10 then (6, "3xl")
  else if n ≤ 15 then (8, "xxl")
  else (10, "xl")

/-- CDN url of an emoji icon (line 195). -/
def emoji_icon_url (emoji : List Char) : String :=
  "https://cdn.discordapp.com/emojis/" ++ String.mk emoji ++ ".png"

/-- One `baseline` box holding one row of emoji icons (lines 195-196). -/
def emoji_row (icon_size : String) (line : List (List Char)) : FlexComponent :=
  FlexComponent.boxComp "baseline" none
    (line.map (fun e => FlexComponent.iconComp (emoji_icon_url e) icon_size))

/-- The emoji-grid body: the extracted emoji hashes grouped into rows of
the tier capacity, one baseline box per row (lines 182-196). -/
def emoji_body (emojis : List (List Char)) : List FlexComponent :=
  (group emojis (emoji_grid_params emojis.length).1).map
    (emoji_row (emoji_grid_params emojis.length).2)

/-- Avatar url (lines 165-170): the platform default when the author has no
custom avatar hash, otherwise the still-photo CDN url built from id and
hash with a fixed size parameter. -/
def avatar_url (a : Author) : String :=
  match a.avatar with
  | none => a.default_avatar_url
  | some hash =>
    "https://cdn.discordapp.com/avatars/" ++ toString a.id ++ "/" ++ hash ++ ".png?size=256"

/-- Author name line (lines 162-163); empty for bot authors (line 158). -/
def message_author_components (m : InboundMessage) : List FlexComponent :=
  if m.author.bot then []
  else
    [FlexComponent.textComp m.author.display_name (some "bold") (some 0)
      (some m.author.color) (some "sm") false]

/-- Avatar image (lines 168-170); empty for bot authors (line 158). -/
def avatar_components (m : InboundMessage) : List FlexComponent :=
  if m.author.bot then []
  else [FlexComponent.imageComp (avatar_url m.author) (some 0) "xxs"]

/-- The message body boxes (lines 172-204): a filler for empty content, the
emoji-icon grid for whole-message-emoji content, otherwise one wrapped text
node.  (The bot plain-text case returns from `text_message` before this
construction is reached.) -/
def message_body_boxes (m : InboundMessage) : List FlexComponent :=
  if m.content = [] then [FlexComponent.filler]
  else if plainEmojiMatch m.content = true then emoji_body (emoji_findall m.content)
  else [FlexComponent.textComp m.content none (some 0) none none true]

/-- Vertical box of author line and body (line 208). -/
def message_box (m : InboundMessage) : FlexComponent :=
  FlexComponent.boxComp "vertical" none
    (message_author_components m ++ message_body_boxes m)

/-- Horizontal box of avatar and message box, `md` spacing (line 211). -/
def message_card_box (m : InboundMessage) : FlexComponent :=
  FlexComponent.boxComp "horizontal" (some "md")
    (avatar_components m ++ [message_box m])

/-- Bubble with the card box as footer (line 215). -/
def message_card_bubble (m : InboundMessage) : BubbleContainer :=
  ⟨message_card_box m⟩

/-- Alt text `'{author}:{body}'` (line 217). -/
def alt_text (m : InboundMessage) : List Char :=
  m.author.display_name ++ ':' :: m.content

/-- `DiscordCarbot.text_message` (lines 150-219).  The URL extractor regex
of line 148 (a large TLD-list pattern) is not embedded character by
character; instead the transformation is parametric in the extraction
function `uf`, which stands for `DiscordCarbot.url_regex.findall`.
Control flow of the source, flattened into guards: a bot author with empty
content returns `[]` (lines 151-155); a bot author with non-empty,
non-whole-emoji content returns a bare text message (lines 197-200);
every other path builds the flex card and appends one text message per
extracted URL (lines 217-219). -/
def text_message (uf : List Char → List (List Char)) (m : InboundMessage) :
    List TargetMessage :=
  if m.author.bot = true ∧ m.content = [] then []
  else if m.content ≠ [] ∧ plainEmojiMatch m.content = false ∧ m.author.bot = true then
    [TargetMessage.textSend m.content]
  else
    TargetMessage.flexSend (alt_text m) (message_card_bubble m)
      :: (uf m.content).map TargetMessage.textSend

/-- Specification-side definition (spec section 4.3): the card-or-text
messages alone, without the link call-outs that spec section 4.5 lists as a
separate segment of the forwarded list. -/
def card_or_text_messages (m : InboundMessage) : List TargetMessage :=
  if m.author.bot = true ∧ m.content = [] then []
  else if m.content ≠ [] ∧ plainEmojiMatch m.content = false ∧ m.author.bot = true then
    [TargetMessage.textSend m.content]
  else [TargetMessage.flexSend (alt_text m) (message_card_bubble m)]

/-- The link call-out segment as the code actually emits it: one plain-text
message per extracted URL, except that a bot-authored message whose content
is not whole-message emoji takes one of the early-return paths of
`text_message` and so produces no link call-outs. -/
def link_followups (uf : List Char → List (List Char)) (m : InboundMessage) :
    List TargetMessage :=
  if m.author.bot = true ∧ plainEmojiMatch m.content = false then []
  else (uf m.content).map TargetMessage.textSend

/-! ## Forwarder (carbot.py lines 96-116) -/

/-- The transformation part of `DiscordCarbot.forward_message`
(lines 96-102): the flattened results of the `text_message` and
`attachments` transforms, in that order; an exception raised by the
attachment transform propagates. -/
def forward_messages (uf : List Char → List (List Char)) (m : InboundMessage) :
    Except PyExc (List TargetMessage) :=
  Except.map (fun atts => text_message uf m ++ atts) (attachments m)

/-- Outcome of one `push_message` call. -/
inductive PushOutcome where
  | ok
  | lineBotApiError (e : String)
  | otherError (e : String)

/-- Whether an outcome is the caught-and-logged provider error. -/
def isLineApiError : PushOutcome → Bool
  | PushOutcome.lineBotApiError _ => true
  | _ => false

/-- Observable result of the dispatch loop of `forward_message`: the
batches on which `push_message` was called, the batches whose failure was
caught and logged, and the exception that escaped the loop, if any. -/
structure DispatchResult where
  attempted : List (List TargetMessage)
  loggedErrors : List (List TargetMessage)
  uncaught : Option String

/-- The dispatch loop of `forward_message` (lines 108-116): push each batch
in order; a `LineBotApiError` is caught and logged and the loop continues
with the next batch; any other exception propagates out of the loop,
aborting the remaining batches. -/
def dispatch_loop (push : List TargetMessage → PushOutcome) :
    List (List TargetMessage) → DispatchResult
  | [] => ⟨[], [], none⟩
  | b :: bs =>
    match push b with
    | PushOutcome.ok =>
      let r := dispatch_loop push bs
      ⟨b :: r.attempted, r.loggedErrors, r.uncaught⟩
    | PushOutcome.lineBotApiError _ =>
      let r := dispatch_loop push bs
      ⟨b :: r.attempted, b :: r.loggedErrors, r.uncaught⟩
    | PushOutcome.otherError e => ⟨[b], [], some e⟩

/-! ## Event handler (carbot.py lines 58-66) -/

/-- Which helper `DiscordCarbot.on_message` invokes for an inbound event. -/
inductive HandlerCall where
  | broadcast
  | forward
  | skip
  deriving DecidableEq

/-- `DiscordCarbot.on_message`: a private (DM) message goes to the private
relay; a guild message is forwarded only when it arrives in the target
channel `line`, has the default message type, and was not sent by the
friend bot. -/
def on_message_action (friend_bot_id : Nat) (m : InboundMessage) : HandlerCall :=
  match m.channel with
  | Channel.dm => HandlerCall.broadcast
  | Channel.guild name =>
    if name = "line" ∧ m.type = MessageType.default ∧ m.author.id ≠ friend_bot_id then
      HandlerCall.forward
    else HandlerCall.skip

/-- The batches pushed to the LINE API for one inbound event: only the
forward path pushes, in groups of at most 5 (lines 104-113); an exception
raised by the transforms prevents every push. -/
def push_calls (uf : List Char → List (List Char)) (friend_bot_id : Nat)
    (m : InboundMessage) : List (List TargetMessage) :=
  match on_message_action friend_bot_id m with
  | HandlerCall.forward =>
    match forward_messages uf m with
    | Except.ok msgs => group msgs 5
    | Except.error _ => []
  | _ => []

/-! ## Private relay (carbot.py lines 69-93) -/

/-- A guild channel as the relay sees it: its display name and identity. -/
structure GChannel where
  name : String
  id : Nat
  deriving DecidableEq

/-- A guild: the ids of its members and its channels. -/
structure Guild where
  members : List Nat
  channels : List GChannel

/-- One `channel.send(...)` call issued by the private relay: destination
channel, optional content text, optional uploaded file (by filename). -/
structure SendCall where
  channelId : Nat
  content : Option (List Char)
  file : Option (List Char)
  deriving DecidableEq

/-- The sends issued into one guild by `broadcast_from_private_channel`
(lines 72-86): locate the channel named `line` (skip the guild when
absent); send the content as its own message when non-empty; then send
each attachment as a file-only message carrying no content text. -/
def guild_relay_calls (m : InboundMessage) (g : Guild) : List SendCall :=
  match g.channels.find? (fun c => c.name = "line") with
  | none => []
  | some ch =>
    (if m.content ≠ [] then [⟨ch.id, some m.content, none⟩] else []) ++
    m.attachments.map (fun a => ⟨ch.id, none, some a.filename⟩)

/-- `DiscordCarbot.broadcast_from_private_channel` (lines 69-93): relay the
private message into every guild the author is a member of. -/
def broadcast_from_private_channel (guilds : List Guild) (m : InboundMessage) :
    List SendCall :=
  ((guilds.filter (fun g => g.members.contains m.author.id)).map
    (guild_relay_calls m)).flatten

/-- The first file-upload send among a list of relay sends. -/
def first_upload (calls : List SendCall) : Option SendCall :=
  calls.find? (fun c => c.file.isSome)

/-! ## Claims -/

/-- C1: the claim says the content classifier never raises and returns
Unsupported (zero target messages) when the MIME guess is empty/unknown.
The code disagrees: when `mimetypes.guess_type` yields `None` (no extension
or unrecognized extension), `attachments` evaluates
`None.startswith('image/')` and raises `AttributeError`.  This theorem
evaluates the embedded code on any such attachment: the transform raises
instead of dropping the attachment. -/
theorem c1_unrecognized_extension_raises (a : Attachment) (rest : List Attachment)
    (h : guess_type a.filename = none) :
    attachments_transform (a :: rest) = Except.error PyExc.attrError := by
  unfold attachments_transform
  rw [h]

/-- Witness for C1 at the concrete extensionless filename `notes`. -/
theorem c1_witness :
    guess_type ("notes".toList) = none ∧
    attachments_transform [⟨"notes".toList, "u.bin", "p.bin"⟩]
      = Except.error PyExc.attrError :=
  ⟨by decide,
   c1_unrecognized_extension_raises ⟨"notes".toList, "u.bin", "p.bin"⟩ [] (by decide)⟩

/-- C2: for every list of target messages, `group _ 5` partitions it into
consecutive batches of at most 5 elements whose concatenation is the
original list (no element duplicated or dropped, order preserved), and a
13-element list yields batch sizes `[5, 5, 3]`. -/
theorem c2_batches_partition (l : List TargetMessage) :
    (group l 5).flatten = l ∧
    (∀ b ∈ group l 5, b.length ≤ 5) ∧
    (l.length = 13 → (group l 5).map List.length = [5, 5, 3]) :=
  ⟨group_flatten 5 (by omega) l,
   fun b hb => (group_mem 5 (by omega) l b hb).2,
   fun hl => group_sizes_13 hl⟩

/-- Witness for C2 at a concrete 13-element list. -/
theorem c2_witness :
    (group (List.replicate 13 (TargetMessage.textSend [])) 5).flatten
      = List.replicate 13 (TargetMessage.textSend []) ∧
    (group (List.replicate 13 (TargetMessage.textSend [])) 5).map List.length
      = [5, 5, 3] :=
  ⟨(c2_batches_partition _).1, (c2_batches_partition _).2.2 (by simp)⟩

theorem emoji_grid_params_pos (n : Nat) : 0 < (emoji_grid_params n).1 := by
  unfold emoji_grid_params
  split
  · norm_num
  · split <;> norm_num

/-- C5: for whole-message-emoji content the body is the emoji-icon grid,
rows and icon size are chosen by the emoji count (at most 10 emoji: rows of
6 at size 3xl; at most 15: rows of 8 at xxl; more: rows of 10 at xl), no
row exceeds the tier capacity, and in particular 7 tokens give rows
(6 + 1), 12 tokens rows (8 + 4), and 23 tokens rows (10 + 10 + 3). -/
theorem c5_emoji_grid_tiers (m : InboundMessage)
    (h : plainEmojiMatch m.content = true) :
    message_body_boxes m
      = (group (emoji_findall m.content)
          (emoji_grid_params (emoji_findall m.content).length).1).map
          (emoji_row (emoji_grid_params (emoji_findall m.content).length).2) ∧
    ((emoji_findall m.content).length ≤ 10 →
      emoji_grid_params (emoji_findall m.content).length = (6, "3xl")) ∧
    (10 < (emoji_findall m.content).length → (emoji_findall m.content).length ≤ 15 →
      emoji_grid_params (emoji_findall m.content).length = (8, "xxl")) ∧
    (15 < (emoji_findall m.content).length →
      emoji_grid_params (emoji_findall m.content).length = (10, "xl")) ∧
    (∀ row ∈ group (emoji_findall m.content)
        (emoji_grid_params (emoji_findall m.content).length).1,
      row.length ≤ (emoji_grid_params (emoji_findall m.content).length).1) ∧
    ((emoji_findall m.content).length = 7 →
      (group (emoji_findall m.content) 6).map List.length = [6, 1]) ∧
    ((emoji_findall m.content).length = 12 →
      (group (emoji_findall m.content) 8).map List.length = [8, 4]) ∧
    ((emoji_findall m.content).length = 23 →
      (group (emoji_findall m.content) 10).map List.length = [10, 10, 3]) := by
  have hne : m.content ≠ [] := by
    intro h0
    rw [h0] at h
    exact absurd h (by decide)
  refine ⟨?_, ?_, ?_, ?_, ?_, ?_, ?_, ?_⟩
  · unfold message_body_boxes
    rw [if_neg hne, if_pos h]
    rfl
  · intro hn
    unfold emoji_grid_params
    rw [if_pos hn]
  · intro hn1 hn2
    unfold emoji_grid_params
    rw [if_neg (by omega), if_pos hn2]
  · intro hn
    unfold emoji_grid_params
    rw [if_neg (by omega), if_neg (by omega)]
  · intro row hrow
    exact (group_mem _ (emoji_grid_params_pos _) _ row hrow).2
  · exact fun h7 => group_sizes_7 h7
  · exact fun h12 => group_sizes_12 h12
  · exact fun h23 => group_sizes_23 h23

/-- A concrete whole-message-emoji message with 7 emoji tokens. -/
def c5_msg : InboundMessage :=
  ⟨⟨1, "ann".toList, "#111111", false, none, "d.png"⟩,
   "<:a:1><:a:2><:a:3><:a:4><:a:5><:a:6><:a:7>".toList,
   [], Channel.guild "line", MessageType.default⟩

/-- Witness for C5 at a 7-token message. -/
theorem c5_witness :
    message_body_boxes c5_msg
      = (group (emoji_findall c5_msg.content)
          (emoji_grid_params (emoji_findall c5_msg.content).length).1).map
          (emoji_row (emoji_grid_params (emoji_findall c5_msg.content).length).2) ∧
    (group (emoji_findall c5_msg.content) 6).map List.length = [6, 1] :=
  ⟨(c5_emoji_grid_tiers c5_msg (by decide)).1,
   (c5_emoji_grid_tiers c5_msg (by decide)).2.2.2.2.2.1 (by decide)⟩

/-- C6: the whole-message emoji detector returns true exactly on strings
that, ignoring surrounding and interleaving whitespace, consist of one or
more `<:name:digits>` emoji tokens and nothing else; consequently,
inserting a non-whitespace character that breaks that token form anywhere
into an accepted text makes the detector return false. -/
theorem c6_whole_emoji_detector (s : List Char) :
    (plainEmojiMatch s = true ↔ SpecPlainEmoji s) ∧
    (∀ u v : List Char, ∀ c : Char, plainEmojiMatch (u ++ v) = true →
      isPySpace c = false → ¬ SpecPlainEmoji (u ++ c :: v) →
      plainEmojiMatch (u ++ c :: v) = false) := by
  refine ⟨plainEmojiMatch_iff_spec s, ?_⟩
  intro u v c _ _ hnot
  cases hb : plainEmojiMatch (u ++ c :: v) with
  | false => rfl
  | true => exact absurd ((plainEmojiMatch_iff_spec _).mp hb) hnot

/-- Witness for C6: inserting `x` after the accepted text `<:a:1>` makes
the detector reject. -/
theorem c6_witness : plainEmojiMatch ("<:a:1>".toList ++ 'x' :: []) = false :=
  (c6_whole_emoji_detector []).2 "<:a:1>".toList [] 'x' (by decide) (by decide)
    (fun hs =>
      absurd ((c6_whole_emoji_detector ("<:a:1>".toList ++ 'x' :: [])).1.mpr hs)
        (by decide))

/-- C7: when every push failure is a provider (`LineBotApiError`) error,
the dispatch loop attempts every batch in order, the failing batches are
logged, and no exception escapes to the caller. -/
theorem c7_provider_errors_isolated
    (push : List TargetMessage → PushOutcome) (msgs : List TargetMessage)
    (h : ∀ b : List TargetMessage, ∀ e : String, push b ≠ PushOutcome.otherError e) :
    (dispatch_loop push (group msgs 5)).attempted = group msgs 5 ∧
    (dispatch_loop push (group msgs 5)).uncaught = none ∧
    (dispatch_loop push (group msgs 5)).loggedErrors
      = (group msgs 5).filter (fun b => isLineApiError (push b)) := by
  have hgen : ∀ bs : List (List TargetMessage),
      (dispatch_loop push bs).attempted = bs ∧
      (dispatch_loop push bs).uncaught = none ∧
      (dispatch_loop push bs).loggedErrors
        = bs.filter (fun b => isLineApiError (push b)) := by
    intro bs
    induction bs with
    | nil => exact ⟨rfl, rfl, rfl⟩
    | cons b bs ih =>
      obtain ⟨ih1, ih2, ih3⟩ := ih
      rcases hp : push b with _ | e | e
      · refine ⟨?_, ?_, ?_⟩ <;>
          simp [dispatch_loop, hp, ih1, ih2, ih3, isLineApiError, List.filter_cons]
      · refine ⟨?_, ?_, ?_⟩ <;>
          simp [dispatch_loop, hp, ih1, ih2, ih3, isLineApiError, List.filter_cons]
      · exact absurd hp (h b e)
  exact hgen (group msgs 5)

/-- A push stub on which every call fails with the provider error. -/
def c7_push : List TargetMessage → PushOutcome :=
  fun _ => PushOutcome.lineBotApiError "boom"

/-- Six messages, so two batches of sizes 5 and 1. -/
def c7_msgs : List TargetMessage := List.replicate 6 (TargetMessage.textSend "x".toList)

/-- Witness for C7: with every batch failing with the provider error, both
batches are still attempted, both failures are logged, nothing escapes. -/
theorem c7_witness :
    (dispatch_loop c7_push (group c7_msgs 5)).attempted = group c7_msgs 5 ∧
    (dispatch_loop c7_push (group c7_msgs 5)).uncaught = none ∧
    (dispatch_loop c7_push (group c7_msgs 5)).loggedErrors
      = (group c7_msgs 5).filter (fun b => isLineApiError (c7_push b)) :=
  c7_provider_errors_isolated c7_push c7_msgs
    (fun _ _ hcontra => PushOutcome.noConfusion hcontra)

/-- C8: a bot-authored message with empty content and a single
image-classified attachment forwards as exactly one Image target message
carrying the attachment's content url and preview (proxy) url, with no
card or text message. -/
theorem c8_bot_image_attachment (uf : List Char → List (List Char))
    (m : InboundMessage) (a : Attachment) (t : List Char)
    (hbot : m.author.bot = true) (hc : m.content = [])
    (ha : m.attachments = [a])
    (hg : guess_type a.filename = some t)
    (himg : ("image/".toList).isPrefixOf t = true) :
    forward_messages uf m
      = Except.ok [TargetMessage.imageSend a.url a.proxy_url] := by
  have htm : text_message uf m = [] := by
    unfold text_message
    rw [if_pos ⟨hbot, hc⟩]
  have hat : attachments m = Except.ok [TargetMessage.imageSend a.url a.proxy_url] := by
    unfold attachments
    rw [ha]
    simp only [attachments_transform, hg]
    rw [if_pos himg]
    rfl
  unfold forward_messages
  rw [hat]
  show Except.ok (text_message uf m ++ [TargetMessage.imageSend a.url a.proxy_url]) = _
  rw [htm]
  rfl

/-- A concrete image attachment. -/
def c8_att : Attachment :=
  ⟨"photo.png".toList, "https://cdn.discordapp.com/att/x.png",
   "https://media.discordapp.net/att/x.png"⟩

/-- A concrete bot message with empty content and one image attachment. -/
def c8_msg : InboundMessage :=
  ⟨⟨42, "linebot".toList, "#000000", true, none, "d.png"⟩, [], [c8_att],
   Channel.guild "line", MessageType.default⟩

/-- Witness for C8 at the concrete message. -/
theorem c8_witness :
    forward_messages (fun _ => []) c8_msg
      = Except.ok [TargetMessage.imageSend c8_att.url c8_att.proxy_url] :=
  c8_bot_image_attachment (fun _ => []) c8_msg c8_att ("image/png".toList)
    rfl rfl rfl (by decide) (by decide)

/-- C9: an inbound event whose author is the configured friend bot, or
whose type is not the default message type, or whose channel is not the
guild channel named `line`, causes no push call. -/
theorem c9_filtered_events_make_no_push
    (uf : List Char → List (List Char)) (friend_bot_id : Nat) (m : InboundMessage)
    (h : m.author.id = friend_bot_id ∨ m.type ≠ MessageType.default ∨
      m.channel ≠ Channel.guild "line") :
    push_calls uf friend_bot_id m = [] := by
  rcases hch : m.channel with _ | name
  · simp [push_calls, on_message_action, hch]
  · have hcond : ¬(name = "line" ∧ m.type = MessageType.default ∧
        m.author.id ≠ friend_bot_id) := by
      rcases h with h | h | h
      · rintro ⟨_, _, h3⟩
        exact h3 h
      · rintro ⟨_, h2, _⟩
        exact h h2
      · rintro ⟨h1, _, _⟩
        exact h (by rw [hch, h1])
    simp [push_calls, on_message_action, hch, hcond]

/-- A concrete friend-bot message in the target channel. -/
def c9_msg : InboundMessage :=
  ⟨⟨5, "linebot".toList, "#000000", true, none, "d.png"⟩, "hello".toList, [],
   Channel.guild "line", MessageType.default⟩

/-- Witness for C9: the friend bot's own channel message is not pushed. -/
theorem c9_witness : push_calls (fun _ => []) 5 c9_msg = [] :=
  c9_filtered_events_make_no_push (fun _ => []) 5 c9_msg (Or.inl rfl)

/-- C10: every push call carries between 1 and 5 target messages, and an
inbound message whose transformation yields zero target messages (for
example a bot message with empty content and no attachments) produces zero
push calls. -/
theorem c10_no_empty_push (uf : List Char → List (List Char))
    (friend_bot_id : Nat) (m : InboundMessage) :
    (∀ b ∈ push_calls uf friend_bot_id m, 1 ≤ b.length ∧ b.length ≤ 5) ∧
    (m.author.bot = true → m.content = [] → m.attachments = [] →
      push_calls uf friend_bot_id m = []) := by
  constructor
  · intro b hb
    unfold push_calls at hb
    rcases ha : on_message_action friend_bot_id m with _ | _ | _
    · rw [ha] at hb
      simp at hb
    · rw [ha] at hb
      rcases hf : forward_messages uf m with e | msgs
      · rw [hf] at hb
        simp at hb
      · rw [hf] at hb
        change b ∈ group msgs 5 at hb
        exact group_mem 5 (by omega) msgs b hb
    · rw [ha] at hb
      simp at hb
  · intro hbot hc hatt
    have htm : text_message uf m = [] := by
      unfold text_message
      rw [if_pos ⟨hbot, hc⟩]
    have hforward : forward_messages uf m = Except.ok [] := by
      unfold forward_messages attachments
      rw [hatt]
      show Except.ok (text_message uf m ++ []) = Except.ok []
      rw [htm]
      rfl
    unfold push_calls
    rcases on_message_action friend_bot_id m with _ | _ | _
    · rfl
    · rw [hforward]
      exact group_nil 5
    · rfl

/-- A bot message with empty content and no attachments. -/
def c10_msg_empty : InboundMessage :=
  ⟨⟨7, "linebot".toList, "#000000", true, none, "d.png"⟩, [], [],
   Channel.guild "line", MessageType.default⟩

/-- A plain user text message that forwards as exactly one card. -/
def c10_msg_one : InboundMessage :=
  ⟨⟨8, "ann".toList, "#123456", false, none, "d.png"⟩, "hello world".toList, [],
   Channel.guild "line", MessageType.default⟩

/-- Witness for C10: the single batch of a one-card message has length 1,
and the empty transformation produces zero push calls. -/
theorem c10_witness :
    (1 ≤ ([TargetMessage.flexSend (alt_text c10_msg_one)
            (message_card_bubble c10_msg_one)] : List TargetMessage).length ∧
      ([TargetMessage.flexSend (alt_text c10_msg_one)
            (message_card_bubble c10_msg_one)] : List TargetMessage).length ≤ 5) ∧
    push_calls (fun _ => []) 0 c10_msg_empty = [] :=
  ⟨(c10_no_empty_push (fun _ => []) 0 c10_msg_one).1
      [TargetMessage.flexSend (alt_text c10_msg_one) (message_card_bubble c10_msg_one)]
      (List.mem_singleton_self _),
   (c10_no_empty_push (fun _ => []) 0 c10_msg_empty).2 rfl rfl rfl⟩

/-- A concrete private message with text and one attachment. -/
def c3_att : Attachment := ⟨"a.png".toList, "https://cdn/a.png", "https://proxy/a.png"⟩

/-- A concrete private (DM) message with content and one attachment. -/
def c3_msg : InboundMessage :=
  ⟨⟨7, "alice".toList, "#ffffff", false, none, "d.png"⟩, "hi".toList, [c3_att],
   Channel.dm, MessageType.default⟩

/-- A guild containing the author and a channel named `line`. -/
def c3_guild : Guild := ⟨[7], [⟨"line", 1⟩]⟩

/-- C3 counterexample: the claim says the content text is attached to
(sent together with) the first attachment re-upload.  In the code the
content is sent as its own message first, and the file uploads carry no
content: at this concrete input the first upload's content is `none`, not
the message text. -/
theorem c3_counterexample :
    ¬ ((first_upload (broadcast_from_private_channel [c3_guild] c3_msg)).map
        SendCall.content = some (some c3_msg.content)) := by
  decide

/-- C3 as amended: in each matching channel the relay sends the content
text (when non-empty) as its own, first message, and every attachment
re-upload carries no content text. -/
theorem c3_relay_text_separate (m : InboundMessage) (g : Guild) :
    (∀ c ∈ guild_relay_calls m g, c.file.isSome = true → c.content = none) ∧
    (m.content ≠ [] → ∀ ch : GChannel,
      g.channels.find? (fun c => c.name = "line") = some ch →
      (guild_relay_calls m g).head? = some ⟨ch.id, some m.content, none⟩) := by
  constructor
  · intro c hc hfile
    unfold guild_relay_calls at hc
    rcases hf : g.channels.find? (fun c => c.name = "line") with _ | ch
    · rw [hf] at hc
      simp at hc
    · rw [hf] at hc
      change c ∈ (if m.content ≠ [] then [(⟨ch.id, some m.content, none⟩ : SendCall)]
          else []) ++ m.attachments.map
            (fun a => (⟨ch.id, none, some a.filename⟩ : SendCall)) at hc
      rcases List.mem_append.mp hc with h1 | h2
      · by_cases hcnt : m.content ≠ []
        · rw [if_pos hcnt] at h1
          have hc1 := List.mem_singleton.mp h1
          subst hc1
          simp at hfile
        · rw [if_neg hcnt] at h1
          simp at h1
      · obtain ⟨a, _, hc2⟩ := List.mem_map.mp h2
        subst hc2
        rfl
  · intro hcnt ch hf
    unfold guild_relay_calls
    rw [hf]
    change ((if m.content ≠ [] then [(⟨ch.id, some m.content, none⟩ : SendCall)]
        else []) ++ m.attachments.map
          (fun a => (⟨ch.id, none, some a.filename⟩ : SendCall))).head?
      = some ⟨ch.id, some m.content, none⟩
    rw [if_pos hcnt]
    rfl

/-- Witness for C3 (amended) at the concrete relay input. -/
theorem c3_witness :
    (SendCall.mk 1 none (some "a.png".toList)).content = none ∧
    (guild_relay_calls c3_msg c3_guild).head? = some ⟨1, some "hi".toList, none⟩ :=
  ⟨(c3_relay_text_separate c3_msg c3_guild).1 ⟨1, none, some "a.png".toList⟩
      (by decide) (by decide),
   (c3_relay_text_separate c3_msg c3_guild).2 (by decide) ⟨"line", 1⟩ (by decide)⟩

/-- A content string containing a URL. -/
def c4_content : List Char := "check this out https://example.com".toList

/-- The URL extractor's documented output on the contents used in this
development: on `c4_content` the TLD regex of carbot.py line 148 finds
exactly `https://example.com`; on the other contents used here it finds
nothing. -/
def c4_uf : List Char → List (List Char) :=
  fun c => if c = c4_content then ["https://example.com".toList] else []

/-- A message from a bot author (not the friend bot) with a URL in its
content. -/
def c4_msg : InboundMessage :=
  ⟨⟨42, "otherbot".toList, "#000000", true, none, "d.png"⟩, c4_content, [],
   Channel.guild "line", MessageType.default⟩

/-- C4 counterexample: the claim says the forwarded list is always the
card-or-text messages, then one text message per extracted URL, then the
attachment messages.  A bot-authored plain-text message takes the
short-circuit path of `text_message`, which returns only the bare text
message and skips the URL call-outs, so at this concrete input the claimed
equality fails. -/
theorem c4_counterexample :
    ¬ (forward_messages c4_uf c4_msg
        = Except.ok (card_or_text_messages c4_msg ++
            (c4_uf c4_msg.content).map TargetMessage.textSend ++
            ([] : List TargetMessage))) := by
  intro h
  have h1 : forward_messages c4_uf c4_msg
      = Except.ok [TargetMessage.textSend c4_content] := rfl
  have h2 : card_or_text_messages c4_msg ++
      (c4_uf c4_msg.content).map TargetMessage.textSend ++ ([] : List TargetMessage)
      = [TargetMessage.textSend c4_content,
         TargetMessage.textSend "https://example.com".toList] := rfl
  rw [h1, h2] at h
  have h3 := congrArg List.length (Except.ok.inj h)
  simp at h3

/-- C4 as amended: the forwarded list is the card-or-text segment, then the
link call-outs, then the attachment messages, in that order — except that a
bot-authored message whose content is not whole-message emoji produces no
link call-outs (its early-return paths skip the URL extraction). -/
theorem c4_segment_order (uf : List Char → List (List Char)) (m : InboundMessage)
    (atts : List TargetMessage) (ha : attachments m = Except.ok atts) :
    forward_messages uf m
      = Except.ok (card_or_text_messages m ++ link_followups uf m ++ atts) := by
  unfold forward_messages
  rw [ha]
  show Except.ok (text_message uf m ++ atts) = _
  have htm : text_message uf m = card_or_text_messages m ++ link_followups uf m := by
    unfold text_message card_or_text_messages link_followups
    by_cases h1 : m.author.bot = true ∧ m.content = []
    · have hpe : plainEmojiMatch m.content = false := by
        rw [h1.2]
        decide
      rw [if_pos h1, if_pos h1, if_pos ⟨h1.1, hpe⟩]
      rfl
    · rw [if_neg h1, if_neg h1]
      by_cases h2 : m.content ≠ [] ∧ plainEmojiMatch m.content = false ∧
          m.author.bot = true
      · rw [if_pos h2, if_pos h2, if_pos ⟨h2.2.2, h2.2.1⟩]
        rfl
      · have h3 : ¬(m.author.bot = true ∧ plainEmojiMatch m.content = false) := by
          rintro ⟨hb, hp⟩
          have hcne : m.content ≠ [] := fun hcc => h1 ⟨hb, hcc⟩
          exact h2 ⟨hcne, hp, hb⟩
        rw [if_neg h2, if_neg h2, if_neg h3]
        rfl
  rw [htm]

/-- A non-bot message with the same URL-bearing content. -/
def c4w_msg : InboundMessage :=
  ⟨⟨9, "ann".toList, "#abcdef", false, none, "d.png"⟩, c4_content, [],
   Channel.guild "line", MessageType.default⟩

/-- Witness for C4 (amended) at a concrete user message with a URL. -/
theorem c4_witness :
    forward_messages c4_uf c4w_msg
      = Except.ok (card_or_text_messages c4w_msg ++ link_followups c4_uf c4w_msg
          ++ ([] : List TargetMessage)) :=
  c4_segment_order c4_uf c4w_msg [] rfl

end Carbot
